import Mathlib

/-!
# Verification of the ShopChain ledger (src/BlockChain.js)

Shallow embedding of the blockchain inventory ledger: SHA-256 (the digest
`crypto.createHash('sha256')` produces), a model of the JavaScript values the
ledger manipulates (JSON-style data with `undefined` and `NaN`), and the
`Block` / `Transaction` / `Product` / `ShopChain` classes with their
operations.  Machine numbers are modelled as mathematical integers (`Int`),
matching the integral quantities, prices and `Date.now()` timestamps the
ledger handles; 32-bit hash arithmetic is `Nat` with explicit `% 2^32`.
-/

/-! ## SHA-256 over `Nat` with explicit `% 2^32` -/

def m32 (x : Nat) : Nat := x % 4294967296

def rotr32 (x n : Nat) : Nat := m32 ((x >>> n) ||| (x <<< (32 - n)))

def bsig0 (x : Nat) : Nat := (rotr32 x 2) ^^^ (rotr32 x 13) ^^^ (rotr32 x 22)

def bsig1 (x : Nat) : Nat := (rotr32 x 6) ^^^ (rotr32 x 11) ^^^ (rotr32 x 25)

def ssig0 (x : Nat) : Nat := (rotr32 x 7) ^^^ (rotr32 x 18) ^^^ (x >>> 3)

def ssig1 (x : Nat) : Nat := (rotr32 x 17) ^^^ (rotr32 x 19) ^^^ (x >>> 10)

def chf (x y z : Nat) : Nat := (x &&& y) ^^^ ((x ^^^ 4294967295) &&& z)

def majf (x y z : Nat) : Nat := (x &&& y) ^^^ (x &&& z) ^^^ (y &&& z)

def shaK : List Nat :=
  [1116352408, 1899447441, 3049323471, 3921009573, 961987163,
   1508970993, 2453635748, 2870763221, 3624381080, 310598401,
   607225278, 1426881987, 1925078388, 2162078206, 2614888103,
   3248222580, 3835390401, 4022224774, 264347078, 604807628,
   770255983, 1249150122, 1555081692, 1996064986, 2554220882,
   2821834349, 2952996808, 3210313671, 3336571891, 3584528711,
   113926993, 338241895, 666307205, 773529912, 1294757372,
   1396182291, 1695183700, 1986661051, 2177026350, 2456956037,
   2730485921, 2820302411, 3259730800, 3345764771, 3516065817,
   3600352804, 4094571909, 275423344, 430227734, 506948616,
   659060556, 883997877, 958139571, 1322822218, 1537002063,
   1747873779, 1955562222, 2024104815, 2227730452, 2361852424,
   2428436474, 2756734187, 3204031479, 3329325298]

structure Sha8 where
  a : Nat
  b : Nat
  c : Nat
  d : Nat
  e : Nat
  f : Nat
  g : Nat
  h : Nat

def shaInit : Sha8 :=
  ⟨1779033703, 3144134277, 1013904242, 2773480762, 1359893119, 2600822924, 528734635, 1541459225⟩

def shaRound (st : Sha8) (kw : Nat × Nat) : Sha8 :=
  let t1 := m32 (st.h + bsig1 st.e + chf st.e st.f st.g + kw.1 + kw.2)
  let t2 := m32 (bsig0 st.a + majf st.a st.b st.c)
  ⟨m32 (t1 + t2), st.a, st.b, st.c, m32 (st.d + t1), st.e, st.f, st.g⟩

/-- Message-schedule extension, carried most-recent-first so each step reads
w[t-2], w[t-7], w[t-15], w[t-16] at fixed small positions. -/
def extendWRev : List Nat → Nat → List Nat
  | ws, 0 => ws
  | ws, k+1 =>
      let x := m32 (ssig1 (ws.get! 1) + ws.get! 6 + ssig0 (ws.get! 14) + ws.get! 15)
      extendWRev (x :: ws) k

def shaCompress (st : Sha8) (block : List Nat) : Sha8 :=
  let w := (extendWRev block.reverse 48).reverse
  let st2 := (shaK.zip w).foldl shaRound st
  ⟨m32 (st.a + st2.a), m32 (st.b + st2.b), m32 (st.c + st2.c), m32 (st.d + st2.d),
   m32 (st.e + st2.e), m32 (st.f + st2.f), m32 (st.g + st2.g), m32 (st.h + st2.h)⟩

def shaBlocks (st : Sha8) (ws : List Nat) : Sha8 :=
  match ws with
  | w0::w1::w2::w3::w4::w5::w6::w7::w8::w9::w10::w11::w12::w13::w14::w15::rest =>
      shaBlocks (shaCompress st [w0,w1,w2,w3,w4,w5,w6,w7,w8,w9,w10,w11,w12,w13,w14,w15]) rest
  | _ => st

def charUtf8 (c : Char) : List Nat :=
  let n := c.toNat
  if n < 128 then [n]
  else if n < 2048 then [192 + n / 64, 128 + n % 64]
  else if n < 65536 then [224 + n / 4096, 128 + (n / 64) % 64, 128 + n % 64]
  else [240 + n / 262144, 128 + (n / 4096) % 64, 128 + (n / 64) % 64, 128 + n % 64]

def strBytes (s : String) : List Nat := (s.data.map charUtf8).flatten

def lenBytes8 (n : Nat) : List Nat :=
  [(n >>> 56) &&& 255, (n >>> 48) &&& 255, (n >>> 40) &&& 255, (n >>> 32) &&& 255,
   (n >>> 24) &&& 255, (n >>> 16) &&& 255, (n >>> 8) &&& 255, n &&& 255]

def shaPad (msg : List Nat) : List Nat :=
  let L := msg.length
  let z := (64 - (L + 9) % 64) % 64
  msg ++ [128] ++ List.replicate z 0 ++ lenBytes8 (L * 8)

def bytesToWords : List Nat → List Nat
  | a :: b :: c :: d :: rest => (a * 16777216 + b * 65536 + c * 256 + d) :: bytesToWords rest
  | _ => []

def hexDigit (n : Nat) : Char :=
  if n < 10 then Char.ofNat (48 + n) else Char.ofNat (87 + n)

def word8hex (n : Nat) : List Char :=
  [hexDigit ((n >>> 28) &&& 15), hexDigit ((n >>> 24) &&& 15), hexDigit ((n >>> 20) &&& 15),
   hexDigit ((n >>> 16) &&& 15), hexDigit ((n >>> 12) &&& 15), hexDigit ((n >>> 8) &&& 15),
   hexDigit ((n >>> 4) &&& 15), hexDigit (n &&& 15)]

/-- SHA-256 hex digest of a string's UTF-8 bytes: the digest
`createHash('sha256').update(s).digest('hex')` produces. -/
def sha256Hex (s : String) : String :=
  let st := shaBlocks shaInit (bytesToWords (shaPad (strBytes s)))
  ⟨word8hex st.a ++ word8hex st.b ++ word8hex st.c ++ word8hex st.d ++
   word8hex st.e ++ word8hex st.f ++ word8hex st.g ++ word8hex st.h⟩

/-! ## JavaScript data values

The ledger's transaction payloads, products and history records are plain
JavaScript data.  `JsVal` models the value forms that reach the ledger:
integral numbers (the CLI feeds `parseInt`/`parseFloat` results; all the
ledger's arithmetic in the modelled scenarios is integral), strings, `null`,
`undefined`, `NaN`, arrays and plain objects with insertion-ordered fields.
Object identity is approximated structurally (the ledger only ever keys maps
and switches by strings and numbers). -/

mutual

inductive JsVal where
  | vnum (n : Int)
  | vstr (s : String)
  | vnull
  | vundefined
  | vnan
  | varr (items : JsArr)
  | vobj (fields : JsObj)

inductive JsArr where
  | nil
  | cons (v : JsVal) (rest : JsArr)

inductive JsObj where
  | nil
  | cons (key : String) (v : JsVal) (rest : JsObj)

end

def JsArr.ofList : List JsVal → JsArr
  | [] => .nil
  | v :: vs => .cons v (JsArr.ofList vs)

def JsArr.toList : JsArr → List JsVal
  | .nil => []
  | .cons v rest => v :: rest.toList

def JsObj.ofList : List (String × JsVal) → JsObj
  | [] => .nil
  | (k, v) :: fs => .cons k v (JsObj.ofList fs)

def JsObj.find : JsObj → String → Option JsVal
  | .nil, _ => none
  | .cons k v rest, key => if k = key then some v else rest.find key

/-- Property access `v[k]`: missing keys and non-objects read as `undefined`. -/
def objGet (v : JsVal) (k : String) : JsVal :=
  match v with
  | .vobj fields => (fields.find k).getD .vundefined
  | _ => .vundefined

/-- Array elements of a value; JS `for … of` over the ledger's payloads only
ever sees arrays, so non-arrays contribute nothing. -/
def asArray (v : JsVal) : List JsVal :=
  match v with
  | .varr items => items.toList
  | _ => []

mutual

/-- SameValueZero, the equality JavaScript `Map`/`Set` keys use (`NaN` equals
`NaN`); object identity approximated structurally. -/
def sameValueZero : JsVal → JsVal → Bool
  | .vnum a, .vnum b => a == b
  | .vstr a, .vstr b => a == b
  | .vnull, .vnull => true
  | .vundefined, .vundefined => true
  | .vnan, .vnan => true
  | .varr a, .varr b => sameValueZeroArr a b
  | .vobj a, .vobj b => sameValueZeroObj a b
  | _, _ => false

def sameValueZeroArr : JsArr → JsArr → Bool
  | .nil, .nil => true
  | .cons v r, .cons v2 r2 => sameValueZero v v2 && sameValueZeroArr r r2
  | _, _ => false

def sameValueZeroObj : JsObj → JsObj → Bool
  | .nil, .nil => true
  | .cons k v r, .cons k2 v2 r2 => k == k2 && sameValueZero v v2 && sameValueZeroObj r r2
  | _, _ => false

end

/-- Strict equality of a value against a string literal: the comparison a JS
`switch (x) { case 'LIT': … }` performs. -/
def strictEqStr (v : JsVal) (s : String) : Bool :=
  match v with
  | .vstr t => t == s
  | _ => false

/-- JS truthiness. -/
def jsTruthy (v : JsVal) : Bool :=
  match v with
  | .vnum n => n != 0
  | .vstr s => s != ""
  | .vnull => false
  | .vundefined => false
  | .vnan => false
  | .varr _ => true
  | .vobj _ => true

mutual

/-- String conversion, as JS `String(v)` / string concatenation sees values. -/
def jsDisplay : JsVal → String
  | .vnum n => toString n
  | .vstr s => s
  | .vnull => "null"
  | .vundefined => "undefined"
  | .vnan => "NaN"
  | .varr items => jsDisplayArr items
  | .vobj _ => "[object Object]"

def jsDisplayArr : JsArr → String
  | .nil => ""
  | .cons v .nil => jsDisplayItem v
  | .cons v rest => jsDisplayItem v ++ "," ++ jsDisplayArr rest

def jsDisplayItem : JsVal → String
  | .vnull => ""
  | .vundefined => ""
  | v => jsDisplay v

end

/-- Integer parse of a string, as JS `Number(string)` sees the integral
strings of this model: blank means 0, optional sign and decimal digits parse,
anything else is NaN (`none`).  Fractional numbers are outside the integer
model. -/
def parseNumOpt (s : String) : Option Int :=
  let t := s.trim
  if t = "" then some 0
  else
    let (sgn, ds) : Int × List Char :=
      match t.data with
      | '-' :: rest => (-1, rest)
      | '+' :: rest => (1, rest)
      | l => (1, l)
    if ds ≠ [] && ds.all (fun c => c.isDigit) then
      some (sgn * (ds.foldl (fun acc c => acc * 10 + (c.toNat - 48)) 0 : Nat))
    else none

/-- Numeric conversion, as JS `ToNumber` sees this model's values (arrays and
objects go through their string form). -/
def jsToNumber (v : JsVal) : Option Int :=
  match v with
  | .vnum n => some n
  | .vnull => some 0
  | .vundefined => none
  | .vnan => none
  | .vstr s => parseNumOpt s
  | .varr _ => parseNumOpt (jsDisplay v)
  | .vobj _ => parseNumOpt (jsDisplay v)

/-- JS `+`: string concatenation when either side converts to a string,
otherwise numeric addition with NaN propagation. -/
def jsAdd (a b : JsVal) : JsVal :=
  match a, b with
  | .vstr _, _ | _, .vstr _ | .varr _, _ | _, .varr _ | .vobj _, _ | _, .vobj _ =>
      .vstr (jsDisplay a ++ jsDisplay b)
  | _, _ =>
      match jsToNumber a, jsToNumber b with
      | some x, some y => .vnum (x + y)
      | _, _ => .vnan

/-- JS `-`: numeric subtraction with NaN propagation. -/
def jsSub (a b : JsVal) : JsVal :=
  match jsToNumber a, jsToNumber b with
  | some x, some y => .vnum (x - y)
  | _, _ => .vnan

/-! ## JSON serialization (`JSON.stringify` / `JSON.parse`) -/

def jsonEscapeChar (c : Char) : List Char :=
  if c = '"' then ['\\', '"']
  else if c = '\\' then ['\\', '\\']
  else if c = '\n' then ['\\', 'n']
  else if c = '\t' then ['\\', 't']
  else if c = '\r' then ['\\', 'r']
  else if c.toNat < 32 then
    ['\\', 'u', '0', '0', hexDigit (c.toNat / 16), hexDigit (c.toNat % 16)]
  else [c]

def jsonQuote (s : String) : String :=
  ⟨'"' :: (s.data.map jsonEscapeChar).flatten ++ ['"']⟩

mutual

/-- `JSON.stringify`: `NaN` prints as `null`; `undefined` array elements print
as `null`; `undefined` object fields are dropped. -/
def jsonStringify : JsVal → String
  | .vnum n => toString n
  | .vstr s => jsonQuote s
  | .vnull => "null"
  | .vundefined => "null"
  | .vnan => "null"
  | .varr items => "[" ++ jsonItems items ++ "]"
  | .vobj fields => "\x7b" ++ jsonFields fields ++ "\x7d"

def jsonItems : JsArr → String
  | .nil => ""
  | .cons v .nil => jsonStringify v
  | .cons v rest => jsonStringify v ++ "," ++ jsonItems rest

def jsonFields : JsObj → String
  | .nil => ""
  | .cons k v rest =>
      match v, rest with
      | .vundefined, _ => jsonFields rest
      | _, .nil => jsonQuote k ++ ":" ++ jsonStringify v
      | _, _ =>
          let restStr := jsonFields rest
          if restStr = "" then jsonQuote k ++ ":" ++ jsonStringify v
          else jsonQuote k ++ ":" ++ jsonStringify v ++ "," ++ restStr

end

mutual

/-- The value `JSON.parse(JSON.stringify v)` yields: `NaN` and `undefined`
collapse to `null` (fields holding `undefined` are dropped); everything else
survives unchanged. -/
def jsonNormalize : JsVal → JsVal
  | .vnum n => .vnum n
  | .vstr s => .vstr s
  | .vnull => .vnull
  | .vundefined => .vnull
  | .vnan => .vnull
  | .varr items => .varr (jsonNormalizeArr items)
  | .vobj fields => .vobj (jsonNormalizeObj fields)

def jsonNormalizeArr : JsArr → JsArr
  | .nil => .nil
  | .cons v rest => .cons (jsonNormalize v) (jsonNormalizeArr rest)

def jsonNormalizeObj : JsObj → JsObj
  | .nil => .nil
  | .cons k v rest =>
      match v with
      | .vundefined => jsonNormalizeObj rest
      | _ => .cons k (jsonNormalize v) (jsonNormalizeObj rest)

end

mutual

/-- A value is JSON-representable when it contains no `undefined` and no
`NaN`; such values round-trip `stringify`/`parse` unchanged. -/
def jsonSafe : JsVal → Bool
  | .vnum _ => true
  | .vstr _ => true
  | .vnull => true
  | .vundefined => false
  | .vnan => false
  | .varr items => jsonSafeArr items
  | .vobj fields => jsonSafeObj fields

def jsonSafeArr : JsArr → Bool
  | .nil => true
  | .cons v rest => jsonSafe v && jsonSafeArr rest

def jsonSafeObj : JsObj → Bool
  | .nil => true
  | .cons _ v rest => jsonSafe v && jsonSafeObj rest

end

/-! ## The ledger model: Block, Transaction, Product, ShopChain

Translated from `src/BlockChain.js`.  `Date.now()` is passed explicitly as a
`now : Int` argument wherever the source calls it; the proof-of-work loop
carries explicit fuel (the source's `while` has no bound: `none` models the
call not returning within that many iterations). -/

structure Transaction where
  type : String
  data : JsVal
  timestamp : Int
  signature : Option String
  transactionId : String

/-- `generateTransactionId`: sha256 of `JSON.stringify(this.data) + this.timestamp`. -/
def generateTransactionId (data : JsVal) (timestamp : Int) : String :=
  sha256Hex (jsonStringify data ++ toString timestamp)

/-- The `Transaction` constructor: fields are assigned in source order
(`type`, `data`, `timestamp`, `signature = null`, `transactionId`). -/
def Transaction.construct (type : String) (data : JsVal) (timestamp : Int) : Transaction :=
  { type := type, data := data, timestamp := timestamp, signature := none,
    transactionId := generateTransactionId data timestamp }

/-- A transaction as `JSON.stringify` sees it: own enumerable fields in
assignment order. -/
def Transaction.toJs (t : Transaction) : JsVal :=
  .vobj (.ofList [("type", .vstr t.type), ("data", t.data), ("timestamp", .vnum t.timestamp),
    ("signature", match t.signature with | some s => .vstr s | none => .vnull),
    ("transactionId", .vstr t.transactionId)])

def stringifyTxList (txs : List Transaction) : String :=
  jsonStringify (.varr (.ofList (txs.map Transaction.toJs)))

structure Block where
  timestamp : Int
  transactions : List Transaction
  previousHash : String
  hash : String
  nonce : Nat

/-- The string `calculateHash` digests:
`this.previousHash + this.timestamp + JSON.stringify(this.transactions) + this.nonce`. -/
def hashInput (previousHash : String) (timestamp : Int) (txs : List Transaction)
    (nonceStr : String) : String :=
  previousHash ++ toString timestamp ++ stringifyTxList txs ++ nonceStr

def Block.calculateHash (b : Block) : String :=
  sha256Hex (hashInput b.previousHash b.timestamp b.transactions (toString b.nonce))

/-- The `Block` constructor.  In the source, `this.hash = this.calculateHash()`
runs BEFORE `this.nonce = 0`, so the digest is computed while `this.nonce` is
`undefined` and string concatenation appends the text `"undefined"`. -/
def Block.construct (timestamp : Int) (transactions : List Transaction)
    (previousHash : String) : Block :=
  { timestamp := timestamp, transactions := transactions, previousHash := previousHash,
    hash := sha256Hex (hashInput previousHash timestamp transactions "undefined"),
    nonce := 0 }

/-- `Array(difficulty + 1).join("0")`: a string of `difficulty` zero characters. -/
def zeroString (d : Nat) : String := ⟨List.replicate d '0'⟩

/-- `hash.substring(0, difficulty)` on the ASCII hex digests involved. -/
def strTake (s : String) (n : Nat) : String := ⟨s.data.take n⟩

/-- One iteration of the mining loop body: `this.nonce++; this.hash = this.calculateHash()`. -/
def Block.step (b : Block) : Block :=
  let n := b.nonce + 1
  { b with nonce := n
           hash := sha256Hex (hashInput b.previousHash b.timestamp b.transactions (toString n)) }

/-- `mineBlock(difficulty)` with explicit fuel: the loop checks the current
hash first, and each spent fuel unit is one `nonce++; recompute` iteration;
`none` means the loop has not terminated within `fuel` iterations. -/
def mineLoop (difficulty : Nat) : Nat → Block → Option Block
  | fuel, b =>
      if strTake b.hash difficulty = zeroString difficulty then some b
      else
        match fuel with
        | 0 => none
        | f + 1 => mineLoop difficulty f b.step

def Block.mineBlock (b : Block) (difficulty fuel : Nat) : Option Block :=
  mineLoop difficulty fuel b

structure Product where
  id : JsVal
  name : JsVal
  category : JsVal
  unit : JsVal
  quantity : JsVal
  price : JsVal
  history : List JsVal

/-- The `Product` constructor: empty history, quantity from `initialQuantity`. -/
def Product.construct (id name category unit initialQuantity price : JsVal) : Product :=
  { id := id, name := name, category := category, unit := unit,
    quantity := initialQuantity, price := price, history := [] }

structure Snapshot where
  timestamp : Int
  blockHeight : Nat
  products : List JsVal

structure ShopChain where
  chain : List Block
  difficulty : Nat
  pendingTransactions : List Transaction
  products : List (JsVal × Product)
  productCategories : List JsVal
  inventorySnapshots : List Snapshot

/-! JS `Map` (insertion-ordered, SameValueZero keys, `set` updates in place)
and `Set` (insertion-ordered, SameValueZero membership). -/

def mapGet (m : List (JsVal × Product)) (k : JsVal) : Option Product :=
  (m.find? (fun e => sameValueZero e.1 k)).map (fun e => e.2)

def mapSet : List (JsVal × Product) → JsVal → Product → List (JsVal × Product)
  | [], k, v => [(k, v)]
  | (k0, v0) :: rest, k, v =>
      if sameValueZero k0 k then (k0, v) :: rest else (k0, v0) :: mapSet rest k v

def mapFromPairs (pairs : List (JsVal × Product)) : List (JsVal × Product) :=
  pairs.foldl (fun m kv => mapSet m kv.1 kv.2) []

def setHas (s : List JsVal) (x : JsVal) : Bool := s.any (fun y => sameValueZero y x)

def setAdd (s : List JsVal) (x : JsVal) : List JsVal := if setHas s x then s else s ++ [x]

def setFromList (xs : List JsVal) : List JsVal := xs.foldl setAdd []

def defaultBlock : Block := { timestamp := 0, transactions := [], previousHash := "", hash := "", nonce := 0 }

def createGenesisBlock (now : Int) : Block := Block.construct now [] "0"

/-- The `ShopChain` constructor. -/
def ShopChain.construct (now : Int) : ShopChain :=
  { chain := [createGenesisBlock now], difficulty := 2, pendingTransactions := [],
    products := [], productCategories := [], inventorySnapshots := [] }

def ShopChain.getLatestBlock (s : ShopChain) : Block := s.chain.getLastD defaultBlock

/-! ### The state reducer (`updateState` and its handlers) -/

def handleProductAdd (products : List (JsVal × Product)) (cats : List JsVal)
    (data : JsVal) : List (JsVal × Product) × List JsVal :=
  let product := objGet data "product"
  let p := Product.construct (objGet product "id") (objGet product "name")
    (objGet product "category") (objGet product "unit")
    (objGet product "initialQuantity") (objGet product "price")
  (mapSet products (objGet product "id") p, setAdd cats (objGet product "category"))

def handleProductUpdate (products : List (JsVal × Product)) (data : JsVal) :
    List (JsVal × Product) :=
  match mapGet products (objGet data "productId") with
  | none => products
  | some p =>
      if strictEqStr (objGet data "updateType") "PRICE" then
        let record : JsVal := .vobj (.ofList [("type", .vstr "PRICE_CHANGE"),
          ("oldValue", p.price), ("newValue", objGet data "newPrice"),
          ("timestamp", objGet data "timestamp"), ("reason", objGet data "reason")])
        mapSet products (objGet data "productId")
          { p with history := p.history ++ [record], price := objGet data "newPrice" }
      else products

def handleInventoryUpdate (products : List (JsVal × Product)) (data : JsVal) :
    List (JsVal × Product) :=
  match mapGet products (objGet data "productId") with
  | none => products
  | some p =>
      let oldQuantity := p.quantity
      let mt := objGet data "movementType"
      let q := objGet data "quantity"
      let newQuantity :=
        if strictEqStr mt "IN" then jsAdd p.quantity q
        else if strictEqStr mt "OUT" then jsSub p.quantity q
        else if strictEqStr mt "ADJUST" then q
        else p.quantity
      let record : JsVal := .vobj (.ofList [("type", .vstr "QUANTITY_CHANGE"),
        ("oldValue", oldQuantity), ("newValue", newQuantity), ("movement", mt),
        ("reason", objGet data "reason"), ("timestamp", objGet data "timestamp")])
      mapSet products (objGet data "productId")
        { p with quantity := newQuantity, history := p.history ++ [record] }

def handleSale (products : List (JsVal × Product)) (data : JsVal) :
    List (JsVal × Product) :=
  (asArray (objGet data "products")).foldl (fun ps item =>
    match mapGet ps (objGet item "id") with
    | none => ps
    | some p =>
        let record : JsVal := .vobj (.ofList [("type", .vstr "SALE"),
          ("quantity", objGet item "quantity"), ("price", objGet item "price"),
          ("timestamp", objGet data "timestamp"), ("orderId", objGet data "orderId")])
        mapSet ps (objGet item "id")
          { p with quantity := jsSub p.quantity (objGet item "quantity"),
                   history := p.history ++ [record] }) products

/-- One transaction through `updateState`'s switch (unknown types are no-ops). -/
def applyTransactionToState (st : List (JsVal × Product) × List JsVal)
    (t : Transaction) : List (JsVal × Product) × List JsVal :=
  if t.type = "PRODUCT_ADD" then handleProductAdd st.1 st.2 t.data
  else if t.type = "PRODUCT_UPDATE" then (handleProductUpdate st.1 t.data, st.2)
  else if t.type = "INVENTORY_UPDATE" then (handleInventoryUpdate st.1 t.data, st.2)
  else if t.type = "SALE" then (handleSale st.1 t.data, st.2)
  else st

/-- The catalog part of `updateState` for one block: the per-transaction loop
followed by the category recomputation
`new Set(Array.from(old).concat(values().map(p => p.category)))`. -/
def applyBlockCatalog (st : List (JsVal × Product) × List JsVal) (b : Block) :
    List (JsVal × Product) × List JsVal :=
  let st2 := b.transactions.foldl applyTransactionToState st
  (st2.1, setFromList (st2.2 ++ st2.1.map (fun e => e.2.category)))

def ShopChain.shouldCreateSnapshot (s : ShopChain) (now : Int) : Bool :=
  s.chain.length % 100 == 0 ||
  (decide (0 < s.inventorySnapshots.length) &&
    decide (86400000 < now - (s.inventorySnapshots.getLastD ⟨0, 0, []⟩).timestamp))

def ShopChain.createInventorySnapshot (s : ShopChain) (now : Int) : ShopChain :=
  let snapshot : Snapshot :=
    { timestamp := now
      blockHeight := s.chain.length
      products := s.products.map (fun e =>
        .vobj (.ofList [("id", e.1), ("quantity", e.2.quantity), ("price", e.2.price)])) }
  { s with inventorySnapshots := s.inventorySnapshots ++ [snapshot] }

def ShopChain.updateState (s : ShopChain) (block : Block) (now : Int) : ShopChain :=
  let st := applyBlockCatalog (s.products, s.productCategories) block
  let s1 := { s with products := st.1, productCategories := st.2 }
  if s1.shouldCreateSnapshot now then s1.createInventorySnapshot now else s1

/-- `minePendingTransactions`: build a block over the current pool linked to
the latest head, seal it, push it, reduce state incrementally, clear the pool.
`none` models the seal loop not terminating within `fuel` iterations (the call
never returns, so no post-state is observable). -/
def ShopChain.minePendingTransactions (s : ShopChain) (now : Int) (fuel : Nat) :
    Option ShopChain :=
  let block := Block.construct now s.pendingTransactions s.getLatestBlock.hash
  (block.mineBlock s.difficulty fuel).map (fun b =>
    let s1 := { s with chain := s.chain ++ [b] }
    let s2 := s1.updateState b now
    { s2 with pendingTransactions := [] })

/-! ### Submission operations -/

def ShopChain.addProduct (s : ShopChain) (productData : JsVal) (now : Int) :
    String × ShopChain :=
  let transaction := Transaction.construct "PRODUCT_ADD"
    (.vobj (.ofList [("product", productData), ("timestamp", .vnum now)])) now
  (transaction.transactionId,
   { s with pendingTransactions := s.pendingTransactions ++ [transaction] })

def ShopChain.updateProductPrice (s : ShopChain) (productId newPrice reason : JsVal)
    (now : Int) : String × ShopChain :=
  let oldPrice := match mapGet s.products productId with | some p => p.price | none => .vundefined
  let transaction := Transaction.construct "PRODUCT_UPDATE"
    (.vobj (.ofList [("productId", productId), ("updateType", .vstr "PRICE"),
      ("oldPrice", oldPrice), ("newPrice", newPrice), ("reason", reason),
      ("timestamp", .vnum now)])) now
  (transaction.transactionId,
   { s with pendingTransactions := s.pendingTransactions ++ [transaction] })

def ShopChain.recordInventoryMovement (s : ShopChain)
    (productId quantity movType reason : JsVal) (now : Int) : String × ShopChain :=
  let transaction := Transaction.construct "INVENTORY_UPDATE"
    (.vobj (.ofList [("productId", productId), ("quantity", quantity),
      ("movementType", movType), ("reason", reason), ("timestamp", .vnum now)])) now
  (transaction.transactionId,
   { s with pendingTransactions := s.pendingTransactions ++ [transaction] })

/-- `addTransaction` throws unless the transaction carries a (truthy)
signature; a JS empty-string signature is falsy. -/
def ShopChain.addTransaction (s : ShopChain) (t : Transaction) : Except String ShopChain :=
  match t.signature with
  | none => .error "Transaction must be signed before adding to the chain"
  | some sig =>
      if sig = "" then .error "Transaction must be signed before adding to the chain"
      else .ok { s with pendingTransactions := s.pendingTransactions ++ [t] }

/-! ### Queries -/

def ShopChain.getProductStock (s : ShopChain) (productId : JsVal) : JsVal :=
  match mapGet s.products productId with
  | some p => if jsTruthy p.quantity then p.quantity else .vnum 0
  | none => .vnum 0

def ShopChain.getProductHistory (s : ShopChain) (productId : JsVal) : List JsVal :=
  match mapGet s.products productId with
  | some p => p.history
  | none => []

/-! ### Persistence (`saveToFile` / `loadFromFile`)

`saveToFile` writes `JSON.stringify(data)`; `loadFromFile` reads the file and
`JSON.parse`s it.  The durable content is modelled as the parsed JSON tree:
stringify-then-parse is `jsonNormalize` (`NaN` → `null`, `undefined` object
fields dropped), and the node `JSON` codec is the identity on such trees. -/

def encodeBlock (b : Block) : JsVal :=
  .vobj (.ofList [("timestamp", .vnum b.timestamp),
    ("transactions", .varr (.ofList (b.transactions.map Transaction.toJs))),
    ("previousHash", .vstr b.previousHash), ("hash", .vstr b.hash),
    ("nonce", .vnum b.nonce)])

def encodeProduct (p : Product) : JsVal :=
  .vobj (.ofList [("id", p.id), ("name", p.name), ("category", p.category),
    ("unit", p.unit), ("quantity", p.quantity), ("price", p.price),
    ("history", .varr (.ofList p.history))])

def encodeSnapshot (sn : Snapshot) : JsVal :=
  .vobj (.ofList [("timestamp", .vnum sn.timestamp), ("blockHeight", .vnum sn.blockHeight),
    ("products", .varr (.ofList sn.products))])

/-- The persisted store: the JSON tree of
`{ chain, products: entries, productCategories: list, inventorySnapshots }`
after the stringify/parse round through the file. -/
def ShopChain.saveToFile (s : ShopChain) : JsVal :=
  jsonNormalize (.vobj (.ofList [
    ("chain", .varr (.ofList (s.chain.map encodeBlock))),
    ("products", .varr (.ofList (s.products.map (fun e =>
        .varr (.ofList [e.1, encodeProduct e.2]))))),
    ("productCategories", .varr (.ofList s.productCategories)),
    ("inventorySnapshots", .varr (.ofList (s.inventorySnapshots.map encodeSnapshot)))]))

def asString (v : JsVal) : String := match v with | .vstr s => s | _ => ""

def asInt (v : JsVal) : Int := match v with | .vnum n => n | _ => 0

def asNat (v : JsVal) : Nat := match v with | .vnum n => n.toNat | _ => 0

def decodeTransaction (v : JsVal) : Transaction :=
  { type := asString (objGet v "type"), data := objGet v "data"
    timestamp := asInt (objGet v "timestamp")
    signature := match objGet v "signature" with | .vstr s => some s | _ => none
    transactionId := asString (objGet v "transactionId") }

def decodeBlock (v : JsVal) : Block :=
  { timestamp := asInt (objGet v "timestamp")
    transactions := (asArray (objGet v "transactions")).map decodeTransaction
    previousHash := asString (objGet v "previousHash")
    hash := asString (objGet v "hash")
    nonce := asNat (objGet v "nonce") }

def decodeProduct (v : JsVal) : Product :=
  { id := objGet v "id", name := objGet v "name", category := objGet v "category"
    unit := objGet v "unit", quantity := objGet v "quantity", price := objGet v "price"
    history := asArray (objGet v "history") }

def decodeSnapshot (v : JsVal) : Snapshot :=
  { timestamp := asInt (objGet v "timestamp")
    blockHeight := asNat (objGet v "blockHeight")
    products := asArray (objGet v "products") }

def decodePair (v : JsVal) : JsVal × Product :=
  match v with
  | .varr (.cons k (.cons pv _)) => (k, decodeProduct pv)
  | _ => (.vundefined, decodeProduct .vnull)

/-- What `loadFromFile` can encounter: a readable parseable file, a missing
file (`ENOENT`), a true I/O fault (e.g. `EACCES`), or unparseable content. -/
inductive LoadInput where
  | fileData (j : JsVal)
  | fileNotFound
  | permissionDenied
  | corruptFile

/-- The two control paths of `loadFromFile`: the `try` body completed, or the
single catch-all `catch` block ran (it logs and inspects nothing). -/
inductive LoadOutcome where
  | success
  | caughtError

/-- `loadFromFile`: assigns the parsed fields on success; every failure —
missing file, I/O fault, corrupt JSON — lands in the same `catch`, which
leaves the store untouched and surfaces nothing to the caller. -/
def ShopChain.loadFromFile (s : ShopChain) (input : LoadInput) : ShopChain × LoadOutcome :=
  match input with
  | .fileData data =>
      ({ s with chain := (asArray (objGet data "chain")).map decodeBlock
                products := mapFromPairs ((asArray (objGet data "products")).map decodePair)
                productCategories := setFromList (asArray (objGet data "productCategories"))
                inventorySnapshots := (asArray (objGet data "inventorySnapshots")).map decodeSnapshot },
       .success)
  | .fileNotFound => (s, .caughtError)
  | .permissionDenied => (s, .caughtError)
  | .corruptFile => (s, .caughtError)

/-! ### Operation sequences

The caller-facing submit/mine interface, for stating invariants over every
reachable store. -/

inductive Op where
  | addProduct (productData : JsVal) (now : Int)
  | updateProductPrice (productId newPrice reason : JsVal) (now : Int)
  | recordInventoryMovement (productId quantity movType reason : JsVal) (now : Int)
  | addTransaction (t : Transaction)
  | mine (now : Int) (fuel : Nat)

/-- Apply one operation.  A mine whose seal loop has not terminated within its
fuel leaves no observable post-state; an unsigned `addTransaction` throws
before touching the pool. -/
def applyOp (s : ShopChain) (op : Op) : ShopChain :=
  match op with
  | .addProduct pd now => (s.addProduct pd now).2
  | .updateProductPrice a b c now => (s.updateProductPrice a b c now).2
  | .recordInventoryMovement a b c d now => (s.recordInventoryMovement a b c d now).2
  | .addTransaction t => match s.addTransaction t with | .ok s2 => s2 | .error _ => s
  | .mine now fuel => (s.minePendingTransactions now fuel).getD s

def runOps (s : ShopChain) (ops : List Op) : ShopChain := ops.foldl applyOp s

/-! ### Spec-side definitions

Second definitions written from the specification's words, to be compared
with the source-translated operations above. -/

/-- Spec: "for all non-genesis blocks `b` at index `i`,
`b.previousHash == chain[i-1].hash`". -/
def chainLinkedAt (chain : List Block) : Prop :=
  ∀ i : Nat, ∀ h : i + 1 < chain.length,
    (chain.get ⟨i + 1, h⟩).previousHash = (chain.get ⟨i, Nat.lt_of_succ_lt h⟩).hash

/-- Spec: "replaying all transactions from genesis" — the full replay of a
chain through the state reducer starting from the empty catalog. -/
def replayCatalog (chain : List Block) : List (JsVal × Product) × List JsVal :=
  chain.foldl applyBlockCatalog ([], [])

/-- Spec: "`shouldSnapshot(chain, snapshots)`: true when chain length is a
multiple of 100, or when more than 24 hours have elapsed since the last
snapshot." -/
def specShouldSnapshot (chain : List Block) (snaps : List Snapshot) (now : Int) : Prop :=
  100 ∣ chain.length ∨ ∃ last, snaps.getLast? = some last ∧ 86400000 < now - last.timestamp

/-- A store whose JavaScript values are all JSON-representable (no `undefined`
or `NaN` anywhere in transaction payloads, products, categories or
snapshots). -/
def ShopChain.jsonSafeStore (s : ShopChain) : Prop :=
  (∀ b ∈ s.chain, ∀ t ∈ b.transactions, jsonSafe t.data = true) ∧
  (∀ e ∈ s.products, jsonSafe e.1 = true ∧ jsonSafe e.2.id = true ∧
    jsonSafe e.2.name = true ∧ jsonSafe e.2.category = true ∧ jsonSafe e.2.unit = true ∧
    jsonSafe e.2.quantity = true ∧ jsonSafe e.2.price = true ∧
    ∀ h ∈ e.2.history, jsonSafe h = true) ∧
  (∀ c ∈ s.productCategories, jsonSafe c = true)

/-! ### Concrete scenario stores (timestamps chosen so the difficulty-2 seals
land within a few nonce iterations, keeping kernel evaluation cheap) -/

/-- The §8 stock scenario exactly as the spec writes its payload:
`addProduct({id:"P1", quantity:10, price:5})`, mine, `OUT 3`, mine. -/
def scenarioStoreSpecPayload : ShopChain :=
  runOps (ShopChain.construct 1)
    [.addProduct (.vobj (.ofList [("id", .vstr "P1"), ("quantity", .vnum 10),
        ("price", .vnum 5)])) 2,
     .mine 95 0,
     .recordInventoryMovement (.vstr "P1") (.vnum 3) (.vstr "OUT") (.vstr "sold") 4,
     .mine 17 2]

/-- The same scenario with the payload field the reducer actually reads
(`initialQuantity`). -/
def scenarioStoreInitialQuantity : ShopChain :=
  runOps (ShopChain.construct 1)
    [.addProduct (.vobj (.ofList [("id", .vstr "P1"), ("initialQuantity", .vnum 10),
        ("price", .vnum 5)])) 2,
     .mine 19 0,
     .recordInventoryMovement (.vstr "P1") (.vnum 3) (.vstr "OUT") (.vstr "sold") 4,
     .mine 35 0]

/-- A store holding a product whose quantity is `NaN` (the CLI produces such a
payload whenever `parseInt` fails, and the `OUT`-on-missing-quantity path of
the spec's own scenario produces one too). -/
def scenarioStoreNaN : ShopChain :=
  runOps (ShopChain.construct 1)
    [.addProduct (.vobj (.ofList [("id", .vstr "P1"), ("initialQuantity", .vnan),
        ("price", .vnum 5)])) 2,
     .mine 98 4]

/-- A three-block store built through the CLI-shaped full payload (all product
fields present and JSON-representable). -/
def scenarioStoreFull : ShopChain :=
  runOps (ShopChain.construct 1)
    [.addProduct (.vobj (.ofList [("id", .vstr "P1"), ("name", .vstr "Rice"),
        ("category", .vstr "Grain"), ("unit", .vstr "kg"),
        ("initialQuantity", .vnum 10), ("price", .vnum 5)])) 2,
     .mine 54 1,
     .recordInventoryMovement (.vstr "P1") (.vnum 3) (.vstr "OUT") (.vstr "sold") 4,
     .mine 60 3]

/-! ## Helper lemmas -/

theorem Block.step_previousHash (b : Block) : b.step.previousHash = b.previousHash := rfl

theorem Block.step_transactions (b : Block) : b.step.transactions = b.transactions := rfl

theorem Block.step_timestamp (b : Block) : b.step.timestamp = b.timestamp := rfl

theorem mineLoop_some (d : Nat) :
    ∀ fuel b b', mineLoop d fuel b = some b' →
      b'.previousHash = b.previousHash ∧ b'.transactions = b.transactions ∧
      b'.timestamp = b.timestamp ∧ strTake b'.hash d = zeroString d := by
  intro fuel
  induction fuel with
  | zero =>
      intro b b' h
      unfold mineLoop at h
      split at h
      · cases h; exact ⟨rfl, rfl, rfl, by assumption⟩
      · cases h
  | succ f ih =>
      intro b b' h
      unfold mineLoop at h
      split at h
      · cases h; exact ⟨rfl, rfl, rfl, by assumption⟩
      · obtain ⟨h1, h2, h3, h4⟩ := ih b.step b' h
        exact ⟨h1, h2, h3, h4⟩

theorem mineLoop_of_iterate (d : Nat) :
    ∀ k b, strTake ((Block.step)^[k] b).hash d = zeroString d →
      ∃ b', mineLoop d k b = some b' := by
  intro k
  induction k with
  | zero =>
      intro b h
      simp only [Function.iterate_zero, id] at h
      exact ⟨b, by unfold mineLoop; rw [if_pos h]⟩
  | succ f ih =>
      intro b h
      by_cases hb : strTake b.hash d = zeroString d
      · exact ⟨b, by unfold mineLoop; rw [if_pos hb]⟩
      · rw [Function.iterate_succ_apply] at h
        obtain ⟨b', hb'⟩ := ih b.step h
        refine ⟨b', ?_⟩
        unfold mineLoop
        rw [if_neg hb]
        exact hb'

theorem updateState_chain (s : ShopChain) (b : Block) (now : Int) :
    (s.updateState b now).chain = s.chain := by
  unfold ShopChain.updateState ShopChain.createInventorySnapshot
  dsimp only
  split <;> rfl

theorem updateState_pending (s : ShopChain) (b : Block) (now : Int) :
    (s.updateState b now).pendingTransactions = s.pendingTransactions := by
  unfold ShopChain.updateState ShopChain.createInventorySnapshot
  dsimp only
  split <;> rfl

theorem updateState_difficulty (s : ShopChain) (b : Block) (now : Int) :
    (s.updateState b now).difficulty = s.difficulty := by
  unfold ShopChain.updateState ShopChain.createInventorySnapshot
  dsimp only
  split <;> rfl

theorem updateState_products (s : ShopChain) (b : Block) (now : Int) :
    (s.updateState b now).products = (applyBlockCatalog (s.products, s.productCategories) b).1 := by
  unfold ShopChain.updateState ShopChain.createInventorySnapshot
  dsimp only
  split <;> rfl

theorem updateState_categories (s : ShopChain) (b : Block) (now : Int) :
    (s.updateState b now).productCategories =
      (applyBlockCatalog (s.products, s.productCategories) b).2 := by
  unfold ShopChain.updateState ShopChain.createInventorySnapshot
  dsimp only
  split <;> rfl

/-- What a completed `minePendingTransactions` call did: the appended block
links to the old head, carries exactly the old pool in order, is sealed at the
store's difficulty, and the catalog advanced by exactly that block. -/
theorem minePending_spec {s : ShopChain} {now : Int} {fuel : Nat} {s2 : ShopChain}
    (h : s.minePendingTransactions now fuel = some s2) :
    ∃ b : Block,
      s2.chain = s.chain ++ [b] ∧
      s2.pendingTransactions = [] ∧
      s2.difficulty = s.difficulty ∧
      b.previousHash = s.getLatestBlock.hash ∧
      b.transactions = s.pendingTransactions ∧
      b.timestamp = now ∧
      (s2.products, s2.productCategories) = applyBlockCatalog (s.products, s.productCategories) b ∧
      strTake b.hash s.difficulty = zeroString s.difficulty := by
  unfold ShopChain.minePendingTransactions at h
  rw [Option.map_eq_some'] at h
  obtain ⟨b, hb, hs2⟩ := h
  obtain ⟨hprev, htxs, hts, hseal⟩ := mineLoop_some s.difficulty fuel _ b hb
  refine ⟨b, ?_, ?_, ?_, ?_, ?_, ?_, ?_, hseal⟩
  · rw [← hs2]
    exact updateState_chain _ b now
  · rw [← hs2]
  · rw [← hs2]
    exact updateState_difficulty _ b now
  · rw [hprev]; rfl
  · rw [htxs]; rfl
  · rw [hts]; rfl
  · rw [← hs2]
    exact Prod.ext_iff.mpr ⟨updateState_products _ b now, updateState_categories _ b now⟩

theorem getLastD_eq_get {α : Type _} (l : List α) (d : α) (h : l ≠ [])
    (hl : l.length - 1 < l.length) : l.getLastD d = l.get ⟨l.length - 1, hl⟩ := by
  rw [List.getLastD_eq_getLast?, List.getLast?_eq_getLast _ h]
  show l.getLast h = _
  exact List.getLast_eq_get l h

theorem chainLinkedAt_append (c : List Block) (b : Block) (hc : chainLinkedAt c)
    (hne : c ≠ []) (hb : b.previousHash = (c.getLastD defaultBlock).hash) :
    chainLinkedAt (c ++ [b]) := by
  intro i h
  have hlen : (c ++ [b]).length = c.length + 1 := by simp
  by_cases hi : i + 1 < c.length
  · have h1 : (c ++ [b]).get ⟨i + 1, h⟩ = c.get ⟨i + 1, hi⟩ := List.get_append _ hi
    have h2 : (c ++ [b]).get ⟨i, Nat.lt_of_succ_lt h⟩ = c.get ⟨i, Nat.lt_of_succ_lt hi⟩ :=
      List.get_append _ (Nat.lt_of_succ_lt hi)
    rw [h1, h2]
    exact hc i hi
  · have hieq : i + 1 = c.length := by rw [hlen] at h; omega
    have hilt : i < c.length := by omega
    have h1 : (c ++ [b]).get ⟨i + 1, h⟩ = b := List.get_of_append rfl hieq.symm
    have h2 : (c ++ [b]).get ⟨i, Nat.lt_of_succ_lt h⟩ = c.get ⟨i, hilt⟩ :=
      List.get_append _ hilt
    rw [h1, h2, hb, getLastD_eq_get c defaultBlock hne (by omega)]
    have hfin : (⟨c.length - 1, by omega⟩ : Fin c.length) = ⟨i, hilt⟩ :=
      Fin.ext (show c.length - 1 = i by omega)
    rw [hfin]

theorem addTransaction_ok {s : ShopChain} {t : Transaction} {s2 : ShopChain}
    (h : s.addTransaction t = .ok s2) :
    s2 = { s with pendingTransactions := s.pendingTransactions ++ [t] } := by
  unfold ShopChain.addTransaction at h
  split at h
  · cases h
  · split at h
    · cases h
    · exact (Except.ok.inj h).symm

theorem applyOp_addTransaction_cases (s : ShopChain) (t : Transaction) :
    applyOp s (.addTransaction t) = s ∨
    applyOp s (.addTransaction t) =
      { s with pendingTransactions := s.pendingTransactions ++ [t] } := by
  simp only [applyOp]
  cases h : s.addTransaction t with
  | ok s2 => exact Or.inr (addTransaction_ok h)
  | error e => exact Or.inl rfl

theorem applyOp_chain_inv (s : ShopChain) (op : Op)
    (h1 : s.chain ≠ []) (h2 : chainLinkedAt s.chain) :
    (applyOp s op).chain ≠ [] ∧ chainLinkedAt (applyOp s op).chain := by
  cases op with
  | addProduct pd now => exact ⟨h1, h2⟩
  | updateProductPrice a b c now => exact ⟨h1, h2⟩
  | recordInventoryMovement a b c d now => exact ⟨h1, h2⟩
  | addTransaction t =>
      rcases applyOp_addTransaction_cases s t with h | h <;> rw [h] <;> exact ⟨h1, h2⟩
  | mine now fuel =>
      show ((s.minePendingTransactions now fuel).getD s).chain ≠ [] ∧
        chainLinkedAt ((s.minePendingTransactions now fuel).getD s).chain
      cases hm : s.minePendingTransactions now fuel with
      | none => exact ⟨h1, h2⟩
      | some s2 =>
          obtain ⟨b, hchain, -, -, hprev, -, -, -, -⟩ := minePending_spec hm
          refine ⟨?_, ?_⟩
          · show s2.chain ≠ []
            rw [hchain]
            simp
          · show chainLinkedAt s2.chain
            rw [hchain]
            exact chainLinkedAt_append _ _ h2 h1 hprev

theorem runOps_chain_inv (ops : List Op) :
    ∀ s : ShopChain, s.chain ≠ [] → chainLinkedAt s.chain →
      (runOps s ops).chain ≠ [] ∧ chainLinkedAt (runOps s ops).chain := by
  induction ops with
  | nil => intro s h1 h2; exact ⟨h1, h2⟩
  | cons op rest ih =>
      intro s h1 h2
      have h3 := applyOp_chain_inv s op h1 h2
      exact ih (applyOp s op) h3.1 h3.2

theorem chainLinkedAt_construct (g : Int) : chainLinkedAt (ShopChain.construct g).chain := by
  intro i h
  simp only [ShopChain.construct, List.length_cons, List.length_nil] at h
  omega

theorem replayCatalog_append (c : List Block) (b : Block) :
    replayCatalog (c ++ [b]) = applyBlockCatalog (replayCatalog c) b := by
  unfold replayCatalog
  rw [List.foldl_append]
  rfl

theorem applyOp_catalog_inv (s : ShopChain) (op : Op)
    (h : (s.products, s.productCategories) = replayCatalog s.chain) :
    ((applyOp s op).products, (applyOp s op).productCategories) =
      replayCatalog (applyOp s op).chain := by
  cases op with
  | addProduct pd now => exact h
  | updateProductPrice a b c now => exact h
  | recordInventoryMovement a b c d now => exact h
  | addTransaction t =>
      rcases applyOp_addTransaction_cases s t with h2 | h2 <;> rw [h2] <;> exact h
  | mine now fuel =>
      show (((s.minePendingTransactions now fuel).getD s).products,
            ((s.minePendingTransactions now fuel).getD s).productCategories) =
          replayCatalog ((s.minePendingTransactions now fuel).getD s).chain
      cases hm : s.minePendingTransactions now fuel with
      | none => exact h
      | some s2 =>
          obtain ⟨b, hchain, -, -, -, -, -, hcat, -⟩ := minePending_spec hm
          show (s2.products, s2.productCategories) = replayCatalog s2.chain
          rw [hchain, replayCatalog_append, ← h]
          exact hcat

theorem runOps_catalog_inv (ops : List Op) :
    ∀ s : ShopChain, (s.products, s.productCategories) = replayCatalog s.chain →
      ((runOps s ops).products, (runOps s ops).productCategories) =
        replayCatalog (runOps s ops).chain := by
  induction ops with
  | nil => intro s h; exact h
  | cons op rest ih =>
      intro s h
      exact ih (applyOp s op) (applyOp_catalog_inv s op h)

/-! ## Claim theorems -/

set_option maxRecDepth 1000000 in
/-- C1: the claim says every block's stored hash equals the hash recomputed by
`calculateHash` from its fields.  The code violates this: the `Block`
constructor assigns `this.hash` before `this.nonce = 0`, so the stored digest
of any never-resealed block (the genesis block in every store) was computed
over the text `"undefined"` in the nonce position, while `calculateHash`
recomputes with nonce `0` — a different digest.  Evaluated here at the genesis
block of a store created at timestamp 1. -/
theorem c1_genesis_stored_hash_differs :
    (createGenesisBlock 1).hash ≠ (createGenesisBlock 1).calculateHash := by
  decide

/-- C2: after any sequence of submit and mine operations from a fresh store,
every non-genesis block's `previousHash` equals the previous block's `hash`;
and every completed `minePendingTransactions` appended a block linked to the
pre-mine chain head's hash. -/
theorem c2_previous_hash_links :
    (∀ (g : Int) (ops : List Op), chainLinkedAt (runOps (ShopChain.construct g) ops).chain) ∧
    (∀ (s : ShopChain) (now : Int) (fuel : Nat) (s2 : ShopChain),
      s.minePendingTransactions now fuel = some s2 →
      ∃ b : Block, s2.chain = s.chain ++ [b] ∧ b.previousHash = s.getLatestBlock.hash) := by
  constructor
  · intro g ops
    exact (runOps_chain_inv ops (ShopChain.construct g)
      (by simp [ShopChain.construct]) (chainLinkedAt_construct g)).2
  · intro s now fuel s2 hm
    obtain ⟨b, hchain, -, -, hprev, -, -, -, -⟩ := minePending_spec hm
    exact ⟨b, hchain, hprev⟩

set_option maxRecDepth 1000000 in
set_option maxHeartbeats 4000000 in
/-- Witness for C2 at a concrete mine: a fresh store (genesis timestamp 1)
mining its empty pool at timestamp 19 seals within 5 iterations. -/
theorem c2_previous_hash_links_witness :
    chainLinkedAt (runOps (ShopChain.construct 1) [.mine 19 5]).chain ∧
    (∃ b : Block,
      (((ShopChain.construct 1).minePendingTransactions 19 5).getD
          (ShopChain.construct 1)).chain = (ShopChain.construct 1).chain ++ [b] ∧
      b.previousHash = (ShopChain.construct 1).getLatestBlock.hash) := by
  constructor
  · exact c2_previous_hash_links.1 1 [.mine 19 5]
  · exact c2_previous_hash_links.2 (ShopChain.construct 1) 19 5 _ (by rfl)

/-- C3: for every store reached by submit and mine operations, the
incrementally maintained catalog (products map and category set) equals the
full replay of the store's chain through the state reducer from the empty
catalog — the catalog is a pure function of the chain. -/
theorem c3_replay_equals_incremental :
    ∀ (g : Int) (ops : List Op),
      ((runOps (ShopChain.construct g) ops).products,
       (runOps (ShopChain.construct g) ops).productCategories) =
        replayCatalog (runOps (ShopChain.construct g) ops).chain := by
  intro g ops
  exact runOps_catalog_inv ops (ShopChain.construct g) rfl

/-- C9: the snapshot predicate holds exactly when the chain length is a
multiple of 100, or a last snapshot exists and lies more than 24 hours
(86400000 ms) before `now`. -/
theorem c9_snapshot_predicate :
    ∀ (s : ShopChain) (now : Int),
      s.shouldCreateSnapshot now = true ↔
        specShouldSnapshot s.chain s.inventorySnapshots now := by
  intro s now
  unfold ShopChain.shouldCreateSnapshot specShouldSnapshot
  rw [Bool.or_eq_true, Bool.and_eq_true, beq_iff_eq, decide_eq_true_iff, decide_eq_true_iff]
  constructor
  · rintro (h | ⟨hlen, hgt⟩)
    · exact Or.inl (Nat.dvd_of_mod_eq_zero h)
    · right
      have hne : s.inventorySnapshots ≠ [] := by
        intro he
        rw [he] at hlen
        simp at hlen
      refine ⟨s.inventorySnapshots.getLastD ⟨0, 0, []⟩, ?_, hgt⟩
      rw [List.getLast?_eq_getLast _ hne, List.getLastD_eq_getLast?,
        List.getLast?_eq_getLast _ hne]
      rfl
  · rintro (h | ⟨last, hlast, hgt⟩)
    · exact Or.inl (Nat.mod_eq_zero_of_dvd h)
    · right
      have hne : s.inventorySnapshots ≠ [] := by
        intro he
        rw [he] at hlast
        cases hlast
      refine ⟨List.length_pos.mpr hne, ?_⟩
      have : s.inventorySnapshots.getLastD ⟨0, 0, []⟩ = last := by
        rw [List.getLastD_eq_getLast?, hlast]
        rfl
      rw [this]
      exact hgt

/-- C6: the pending pool is cleared exactly by mining: every completed
`minePendingTransactions` leaves an empty pool and appends a block whose
transaction list is exactly the pre-mine pool in order; every other operation
(the three typed submits, a successful signed `addTransaction`, and
`loadFromFile`) leaves the pool nonempty or untouched — none empties it. -/
theorem c6_pool_cleared_exactly_on_mine :
    (∀ (s : ShopChain) (now : Int) (fuel : Nat) (s2 : ShopChain),
      s.minePendingTransactions now fuel = some s2 →
      s2.pendingTransactions = [] ∧
      ∃ b : Block, s2.chain = s.chain ++ [b] ∧ b.transactions = s.pendingTransactions) ∧
    (∀ (s : ShopChain) (pd : JsVal) (now : Int),
      (s.addProduct pd now).2.pendingTransactions ≠ []) ∧
    (∀ (s : ShopChain) (a b c : JsVal) (now : Int),
      (s.updateProductPrice a b c now).2.pendingTransactions ≠ []) ∧
    (∀ (s : ShopChain) (a b c d : JsVal) (now : Int),
      (s.recordInventoryMovement a b c d now).2.pendingTransactions ≠ []) ∧
    (∀ (s : ShopChain) (t : Transaction) (sig : String),
      t.signature = some sig → sig ≠ "" →
      ∃ s2, s.addTransaction t = .ok s2 ∧ s2.pendingTransactions ≠ []) ∧
    (∀ (s : ShopChain) (input : LoadInput),
      (s.loadFromFile input).1.pendingTransactions = s.pendingTransactions) := by
  refine ⟨?_, ?_, ?_, ?_, ?_, ?_⟩
  · intro s now fuel s2 hm
    obtain ⟨b, hchain, hpend, -, -, htxs, -, -, -⟩ := minePending_spec hm
    exact ⟨hpend, b, hchain, htxs⟩
  · intro s pd now
    show s.pendingTransactions ++ [_] ≠ []
    simp
  · intro s a b c now
    show s.pendingTransactions ++ [_] ≠ []
    simp
  · intro s a b c d now
    show s.pendingTransactions ++ [_] ≠ []
    simp
  · intro s t sig hsig hne
    refine ⟨{ s with pendingTransactions := s.pendingTransactions ++ [t] }, ?_, by simp⟩
    unfold ShopChain.addTransaction
    rw [hsig]
    simp only [if_neg hne]
  · intro s input
    cases input <;> rfl

set_option maxRecDepth 1000000 in
set_option maxHeartbeats 4000000 in
/-- Witness for C6: the concrete empty-pool mine (fresh store at timestamp 1,
mined at timestamp 19 within 5 iterations) and a concrete signed
transaction. -/
theorem c6_pool_cleared_exactly_on_mine_witness :
    ((((ShopChain.construct 1).minePendingTransactions 19 5).getD
          (ShopChain.construct 1)).pendingTransactions = [] ∧
      ∃ b : Block,
        (((ShopChain.construct 1).minePendingTransactions 19 5).getD
            (ShopChain.construct 1)).chain = (ShopChain.construct 1).chain ++ [b] ∧
        b.transactions = (ShopChain.construct 1).pendingTransactions) ∧
    (∃ s2, (ShopChain.construct 1).addTransaction ⟨"SALE", .vnull, 0, some "ab", "id"⟩ =
        .ok s2 ∧ s2.pendingTransactions ≠ []) := by
  constructor
  · exact c6_pool_cleared_exactly_on_mine.1 (ShopChain.construct 1) 19 5 _ (by rfl)
  · exact c6_pool_cleared_exactly_on_mine.2.2.2.2.1 (ShopChain.construct 1)
      ⟨"SALE", .vnull, 0, some "ab", "id"⟩ "ab" rfl (by decide)

/-- C10: each submission operation appends exactly one transaction to the
pending pool and leaves the chain, products map, category set, and snapshot
list unchanged; among the submit/mine operations, only a mine can change the
catalog. -/
theorem c10_submissions_frame :
    (∀ (s : ShopChain) (pd : JsVal) (now : Int),
      (s.addProduct pd now).2.chain = s.chain ∧
      (s.addProduct pd now).2.products = s.products ∧
      (s.addProduct pd now).2.productCategories = s.productCategories ∧
      (s.addProduct pd now).2.inventorySnapshots = s.inventorySnapshots ∧
      ∃ t, (s.addProduct pd now).2.pendingTransactions = s.pendingTransactions ++ [t]) ∧
    (∀ (s : ShopChain) (pid np reason : JsVal) (now : Int),
      (s.updateProductPrice pid np reason now).2.chain = s.chain ∧
      (s.updateProductPrice pid np reason now).2.products = s.products ∧
      (s.updateProductPrice pid np reason now).2.productCategories = s.productCategories ∧
      (s.updateProductPrice pid np reason now).2.inventorySnapshots = s.inventorySnapshots ∧
      ∃ t, (s.updateProductPrice pid np reason now).2.pendingTransactions =
        s.pendingTransactions ++ [t]) ∧
    (∀ (s : ShopChain) (pid qty mv reason : JsVal) (now : Int),
      (s.recordInventoryMovement pid qty mv reason now).2.chain = s.chain ∧
      (s.recordInventoryMovement pid qty mv reason now).2.products = s.products ∧
      (s.recordInventoryMovement pid qty mv reason now).2.productCategories =
        s.productCategories ∧
      (s.recordInventoryMovement pid qty mv reason now).2.inventorySnapshots =
        s.inventorySnapshots ∧
      ∃ t, (s.recordInventoryMovement pid qty mv reason now).2.pendingTransactions =
        s.pendingTransactions ++ [t]) ∧
    (∀ (s : ShopChain) (t : Transaction) (sig : String),
      t.signature = some sig → sig ≠ "" →
      ∃ s2, s.addTransaction t = .ok s2 ∧
        s2.chain = s.chain ∧ s2.products = s.products ∧
        s2.productCategories = s.productCategories ∧
        s2.inventorySnapshots = s.inventorySnapshots ∧
        s2.pendingTransactions = s.pendingTransactions ++ [t]) ∧
    (∀ (s : ShopChain) (op : Op), (∀ now fuel, op ≠ .mine now fuel) →
      (applyOp s op).products = s.products ∧
      (applyOp s op).productCategories = s.productCategories) := by
  refine ⟨?_, ?_, ?_, ?_, ?_⟩
  · intro s pd now
    exact ⟨rfl, rfl, rfl, rfl, _, rfl⟩
  · intro s pid np reason now
    exact ⟨rfl, rfl, rfl, rfl, _, rfl⟩
  · intro s pid qty mv reason now
    exact ⟨rfl, rfl, rfl, rfl, _, rfl⟩
  · intro s t sig hsig hne
    refine ⟨{ s with pendingTransactions := s.pendingTransactions ++ [t] },
      ?_, rfl, rfl, rfl, rfl, rfl⟩
    unfold ShopChain.addTransaction
    rw [hsig]
    simp only [if_neg hne]
  · intro s op hop
    cases op with
    | addProduct pd now => exact ⟨rfl, rfl⟩
    | updateProductPrice a b c now => exact ⟨rfl, rfl⟩
    | recordInventoryMovement a b c d now => exact ⟨rfl, rfl⟩
    | addTransaction t =>
        rcases applyOp_addTransaction_cases s t with h | h <;> rw [h] <;> exact ⟨rfl, rfl⟩
    | mine now fuel => exact absurd rfl (hop now fuel)

/-- Witness for C10: the signed-path conjunct at a concrete signed transaction
and the not-a-mine conjunct at a concrete submit operation. -/
theorem c10_submissions_frame_witness :
    (∃ s2, (ShopChain.construct 0).addTransaction ⟨"SALE", .vnull, 0, some "ab", "id"⟩ =
        .ok s2 ∧
      s2.chain = (ShopChain.construct 0).chain ∧
      s2.products = (ShopChain.construct 0).products ∧
      s2.productCategories = (ShopChain.construct 0).productCategories ∧
      s2.inventorySnapshots = (ShopChain.construct 0).inventorySnapshots ∧
      s2.pendingTransactions = (ShopChain.construct 0).pendingTransactions ++
        [⟨"SALE", .vnull, 0, some "ab", "id"⟩]) ∧
    ((applyOp (ShopChain.construct 0) (.addProduct .vnull 1)).products =
        (ShopChain.construct 0).products ∧
      (applyOp (ShopChain.construct 0) (.addProduct .vnull 1)).productCategories =
        (ShopChain.construct 0).productCategories) := by
  constructor
  · exact c10_submissions_frame.2.2.2.1 (ShopChain.construct 0)
      ⟨"SALE", .vnull, 0, some "ab", "id"⟩ "ab" rfl (by decide)
  · exact c10_submissions_frame.2.2.2.2 (ShopChain.construct 0) (.addProduct .vnull 1)
      (fun now fuel h => by cases h)

set_option maxRecDepth 1000000 in
set_option maxHeartbeats 4000000 in
/-- C5 counterexample: the claim says sealing leaves exactly `d` leading zero
hex characters.  Sealing the block `Block(53, [], "0")` at difficulty 1
terminates (nonce 12) with a hash whose first TWO characters are zeros, so the
sealed hash does not have exactly one leading zero. -/
theorem c5_exactly_d_zeros_counterexample :
    ((Block.construct 53 [] "0").mineBlock 1 12).map (fun b => strTake b.hash 2) =
      some (zeroString 2) := by
  rfl

/-- C5 amended: for every block and every difficulty `d` that is feasible for
it (some iterate of the loop body reaches a hash whose first `d` hex
characters are zeros), `mineBlock` terminates with that much fuel and the
sealed hash has AT LEAST `d` leading zero hex characters; exactly `d` is not
guaranteed, since the loop stops at the first hash meeting the prefix
condition however many zeros follow. -/
theorem c5_seal_terminates_with_at_least_d_zeros :
    ∀ (b : Block) (d k : Nat),
      strTake ((Block.step)^[k] b).hash d = zeroString d →
      ∃ b', b.mineBlock d k = some b' ∧ strTake b'.hash d = zeroString d := by
  intro b d k hk
  obtain ⟨b', hb'⟩ := mineLoop_of_iterate d k b hk
  exact ⟨b', hb', (mineLoop_some d k b b' hb').2.2.2⟩

set_option maxRecDepth 1000000 in
set_option maxHeartbeats 4000000 in
/-- Witness for C5: difficulty 1 is feasible for `Block(2, [], "0")` within 2
iterations, and sealing it indeed terminates with a `"0"`-prefixed hash. -/
theorem c5_seal_terminates_with_at_least_d_zeros_witness :
    ∃ b', (Block.construct 2 [] "0").mineBlock 1 2 = some b' ∧
      strTake b'.hash 1 = zeroString 1 :=
  c5_seal_terminates_with_at_least_d_zeros (Block.construct 2 [] "0") 1 2 (by rfl)

/-- C8 counterexample: the claim says a true I/O fault (permission denied) is
surfaced distinctly from the file simply not existing.  The single catch-all
in `loadFromFile` inspects nothing: both failures produce identical
caller-visible results (same store, same outcome, no exception). -/
theorem c8_io_fault_not_distinguished :
    (ShopChain.construct 7).loadFromFile .permissionDenied =
      (ShopChain.construct 7).loadFromFile .fileNotFound := by
  rfl

/-- C8 amended: on missing or unreadable storage, `loadFromFile` raises
nothing to the caller and leaves the store unchanged — so a fresh store stays
genesis-only; however a true I/O fault is handled identically to a missing
file by the one catch-all, not surfaced distinctly. -/
theorem c8_load_failure_recovery :
    (∀ (s : ShopChain) (input : LoadInput), (∀ j, input ≠ .fileData j) →
      s.loadFromFile input = (s, .caughtError)) ∧
    (∀ g : Int, (ShopChain.construct g).chain = [createGenesisBlock g]) := by
  constructor
  · intro s input h
    cases input with
    | fileData j => exact absurd rfl (h j)
    | fileNotFound => rfl
    | permissionDenied => rfl
    | corruptFile => rfl
  · intro g
    rfl

/-- Witness for C8: a permission-denied load on a fresh store leaves it
unchanged with the caught-error outcome, and that store is genesis-only. -/
theorem c8_load_failure_recovery_witness :
    (ShopChain.construct 7).loadFromFile .permissionDenied =
      (ShopChain.construct 7, .caughtError) ∧
    (ShopChain.construct 7).chain = [createGenesisBlock 7] :=
  ⟨c8_load_failure_recovery.1 (ShopChain.construct 7) .permissionDenied
      (fun _ h => nomatch h),
   c8_load_failure_recovery.2 7⟩

set_option maxRecDepth 1000000 in
set_option maxHeartbeats 8000000 in
/-- C4 counterexample: running the scenario with the claim's literal payload
`{id:"P1", quantity:10, price:5}` does NOT yield stock 7.  The reducer reads
`initialQuantity`, which is absent, so the product's quantity is `undefined`;
the `OUT 3` movement turns it into `NaN`; and `getProductStock`'s `|| 0`
returns 0. -/
theorem c4_spec_payload_scenario_fails :
    scenarioStoreSpecPayload.getProductStock (.vstr "P1") ≠ .vnum 7 := by
  intro h
  have he : scenarioStoreSpecPayload.getProductStock (.vstr "P1") = .vnum 0 := by rfl
  rw [he] at h
  injection h with hv
  exact absurd hv (by decide)

/-- C4 amended: with the payload field the reducer reads —
`addProduct({id:"P1", initialQuantity:10, price:5})` — the scenario holds for
every choice of store-creation and operation timestamps and every fuel under
which both mines complete: after add, mine, `OUT 3`, mine, the stock of `P1`
is 7. -/
theorem c4_initial_quantity_scenario :
    ∀ (g t1 m1 t2 m2 : Int) (f1 f2 : Nat) (s2 s4 : ShopChain),
      (((ShopChain.construct g).addProduct
          (.vobj (.ofList [("id", .vstr "P1"), ("initialQuantity", .vnum 10),
            ("price", .vnum 5)])) t1).2).minePendingTransactions m1 f1 = some s2 →
      ((s2.recordInventoryMovement (.vstr "P1") (.vnum 3) (.vstr "OUT") (.vstr "sold")
          t2).2).minePendingTransactions m2 f2 = some s4 →
      s4.getProductStock (.vstr "P1") = .vnum 7 := by
  intro g t1 m1 t2 m2 f1 f2 s2 s4 h1 h2
  obtain ⟨b1, -, hpend1, -, -, htx1, -, hcat1, -⟩ := minePending_spec h1
  obtain ⟨b2, -, -, -, -, htx2, -, hcat2, -⟩ := minePending_spec h2
  have hp2 : s2.products =
      [(.vstr "P1", ⟨.vstr "P1", .vundefined, .vundefined, .vundefined, .vnum 10, .vnum 5, []⟩)] := by
    have hfst : s2.products =
        (applyBlockCatalog
          ((((ShopChain.construct g).addProduct
              (.vobj (.ofList [("id", .vstr "P1"), ("initialQuantity", .vnum 10),
                ("price", .vnum 5)])) t1).2).products,
           (((ShopChain.construct g).addProduct
              (.vobj (.ofList [("id", .vstr "P1"), ("initialQuantity", .vnum 10),
                ("price", .vnum 5)])) t1).2).productCategories) b1).1 :=
      congrArg Prod.fst hcat1
    rw [hfst]
    unfold applyBlockCatalog
    rw [htx1]
    rfl
  have hp4 : s4.products =
      (applyBlockCatalog
        (((s2.recordInventoryMovement (.vstr "P1") (.vnum 3) (.vstr "OUT") (.vstr "sold")
            t2).2).products,
         ((s2.recordInventoryMovement (.vstr "P1") (.vnum 3) (.vstr "OUT") (.vstr "sold")
            t2).2).productCategories) b2).1 :=
    congrArg Prod.fst hcat2
  unfold ShopChain.getProductStock
  rw [hp4]
  unfold applyBlockCatalog
  rw [htx2]
  show (match mapGet (((s2.pendingTransactions ++
        [Transaction.construct "INVENTORY_UPDATE"
          (.vobj (.ofList [("productId", .vstr "P1"), ("quantity", .vnum 3),
            ("movementType", .vstr "OUT"), ("reason", .vstr "sold"),
            ("timestamp", .vnum t2)])) t2]).foldl applyTransactionToState
        (s2.products,
         ((s2.recordInventoryMovement (.vstr "P1") (.vnum 3) (.vstr "OUT") (.vstr "sold")
            t2).2).productCategories)).1) (.vstr "P1") with
    | some p => if jsTruthy p.quantity then p.quantity else JsVal.vnum 0
    | none => JsVal.vnum 0) = JsVal.vnum 7
  rw [hpend1, hp2]
  rfl

set_option maxRecDepth 1000000 in
set_option maxHeartbeats 8000000 in
/-- Witness for C4 (amended): the concrete run with store creation at
timestamp 1, add at 2, mine at 19 (sealing immediately), movement at 4, mine
at 35 yields stock 7. -/
theorem c4_initial_quantity_scenario_witness :
    scenarioStoreInitialQuantity.getProductStock (.vstr "P1") = .vnum 7 :=
  c4_initial_quantity_scenario 1 2 19 4 35 0 0
    (((((ShopChain.construct 1).addProduct
        (.vobj (.ofList [("id", .vstr "P1"), ("initialQuantity", .vnum 10),
          ("price", .vnum 5)])) 2).2).minePendingTransactions 19 0).getD
      (ShopChain.construct 1))
    scenarioStoreInitialQuantity (by rfl) (by rfl)

mutual

theorem jsonNormalize_of_safe : ∀ v : JsVal, jsonSafe v = true → jsonNormalize v = v
  | .vnum _, _ => rfl
  | .vstr _, _ => rfl
  | .vnull, _ => rfl
  | .vundefined, h => by cases h
  | .vnan, h => by cases h
  | .varr items, h => by
      show JsVal.varr (jsonNormalizeArr items) = JsVal.varr items
      rw [jsonNormalizeArr_of_safe items h]
  | .vobj fields, h => by
      show JsVal.vobj (jsonNormalizeObj fields) = JsVal.vobj fields
      rw [jsonNormalizeObj_of_safe fields h]

theorem jsonNormalizeArr_of_safe : ∀ a : JsArr, jsonSafeArr a = true → jsonNormalizeArr a = a
  | .nil, _ => rfl
  | .cons v rest, h => by
      have h1 : jsonSafe v = true ∧ jsonSafeArr rest = true := by
        have h0 : (jsonSafe v && jsonSafeArr rest) = true := h
        rw [Bool.and_eq_true] at h0
        exact h0
      show JsArr.cons (jsonNormalize v) (jsonNormalizeArr rest) = JsArr.cons v rest
      rw [jsonNormalize_of_safe v h1.1, jsonNormalizeArr_of_safe rest h1.2]

theorem jsonNormalizeObj_of_safe : ∀ o : JsObj, jsonSafeObj o = true → jsonNormalizeObj o = o
  | .nil, _ => rfl
  | .cons k v rest, h => by
      have h1 : jsonSafe v = true ∧ jsonSafeObj rest = true := by
        have h0 : (jsonSafe v && jsonSafeObj rest) = true := h
        rw [Bool.and_eq_true] at h0
        exact h0
      have hv := jsonNormalize_of_safe v h1.1
      have hr := jsonNormalizeObj_of_safe rest h1.2
      cases v with
      | vnum n => exact congrArg₂ (fun w r => JsObj.cons k w r) hv hr
      | vstr s => exact congrArg₂ (fun w r => JsObj.cons k w r) hv hr
      | vnull => exact congrArg₂ (fun w r => JsObj.cons k w r) hv hr
      | vundefined => cases h1.1
      | vnan => cases h1.1
      | varr a => exact congrArg₂ (fun w r => JsObj.cons k w r) hv hr
      | vobj o2 => exact congrArg₂ (fun w r => JsObj.cons k w r) hv hr

end

/-- Normalizing one object field whose value is JSON-safe keeps the field. -/
theorem jsonNormalizeObj_cons_safe (k : String) (v : JsVal) (rest : JsObj)
    (hv : jsonSafe v = true) :
    jsonNormalizeObj (.cons k v rest) = .cons k v (jsonNormalizeObj rest) := by
  have hn := jsonNormalize_of_safe v hv
  cases v with
  | vnum n => exact congrArg (fun w => JsObj.cons k w (jsonNormalizeObj rest)) hn
  | vstr s => exact congrArg (fun w => JsObj.cons k w (jsonNormalizeObj rest)) hn
  | vnull => exact congrArg (fun w => JsObj.cons k w (jsonNormalizeObj rest)) hn
  | vundefined => cases hv
  | vnan => cases hv
  | varr a => exact congrArg (fun w => JsObj.cons k w (jsonNormalizeObj rest)) hn
  | vobj o => exact congrArg (fun w => JsObj.cons k w (jsonNormalizeObj rest)) hn

theorem jsonNormalizeArr_ofList (l : List JsVal) :
    jsonNormalizeArr (JsArr.ofList l) = JsArr.ofList (l.map jsonNormalize) := by
  induction l with
  | nil => rfl
  | cons v rest ih =>
      show JsArr.cons (jsonNormalize v) (jsonNormalizeArr (JsArr.ofList rest)) = _
      rw [ih]
      rfl

theorem JsArr.toList_ofList (l : List JsVal) : (JsArr.ofList l).toList = l := by
  induction l with
  | nil => rfl
  | cons v rest ih =>
      show v :: (JsArr.ofList rest).toList = v :: rest
      rw [ih]

theorem map_normalize_of_safe (l : List JsVal) (h : ∀ x ∈ l, jsonSafe x = true) :
    l.map jsonNormalize = l := by
  induction l with
  | nil => rfl
  | cons v rest ih =>
      show jsonNormalize v :: rest.map jsonNormalize = v :: rest
      rw [jsonNormalize_of_safe v (h v (by simp)), ih (fun x hx => h x (by simp [hx]))]

theorem decodeTransaction_roundtrip (t : Transaction) (hd : jsonSafe t.data = true) :
    decodeTransaction (jsonNormalize (Transaction.toJs t)) = t := by
  obtain ⟨ty, data, ts, sig, txid⟩ := t
  cases sig with
  | none =>
      have hobj : jsonNormalize (Transaction.toJs ⟨ty, data, ts, none, txid⟩) =
          .vobj (.cons "type" (.vstr ty) (.cons "data" data (.cons "timestamp" (.vnum ts)
            (.cons "signature" .vnull (.cons "transactionId" (.vstr txid) .nil))))) := by
        show JsVal.vobj (JsObj.cons "type" (.vstr ty) (jsonNormalizeObj
          (.cons "data" data (.cons "timestamp" (.vnum ts)
            (.cons "signature" .vnull (.cons "transactionId" (.vstr txid) .nil)))))) = _
        rw [jsonNormalizeObj_cons_safe _ _ _ hd]
        rfl
      rw [hobj]
      rfl
  | some sg =>
      have hobj : jsonNormalize (Transaction.toJs ⟨ty, data, ts, some sg, txid⟩) =
          .vobj (.cons "type" (.vstr ty) (.cons "data" data (.cons "timestamp" (.vnum ts)
            (.cons "signature" (.vstr sg) (.cons "transactionId" (.vstr txid) .nil))))) := by
        show JsVal.vobj (JsObj.cons "type" (.vstr ty) (jsonNormalizeObj
          (.cons "data" data (.cons "timestamp" (.vnum ts)
            (.cons "signature" (.vstr sg) (.cons "transactionId" (.vstr txid) .nil)))))) = _
        rw [jsonNormalizeObj_cons_safe _ _ _ hd]
        rfl
      rw [hobj]
      rfl

theorem decode_normalize_txs (txs : List Transaction)
    (h : ∀ t ∈ txs, jsonSafe t.data = true) :
    ((txs.map Transaction.toJs).map jsonNormalize).map decodeTransaction = txs := by
  induction txs with
  | nil => rfl
  | cons t rest ih =>
      show decodeTransaction (jsonNormalize (Transaction.toJs t)) ::
        ((rest.map Transaction.toJs).map jsonNormalize).map decodeTransaction = t :: rest
      rw [decodeTransaction_roundtrip t (h t (by simp)), ih (fun x hx => h x (by simp [hx]))]

theorem decodeBlock_roundtrip (b : Block)
    (h : ∀ t ∈ b.transactions, jsonSafe t.data = true) :
    decodeBlock (jsonNormalize (encodeBlock b)) = b := by
  obtain ⟨ts, txs, prev, hsh, nonce⟩ := b
  show
    ({ timestamp := ts
       transactions :=
         (jsonNormalizeArr (.ofList (txs.map Transaction.toJs))).toList.map decodeTransaction
       previousHash := prev
       hash := hsh
       nonce := nonce } : Block) = ⟨ts, txs, prev, hsh, nonce⟩
  rw [jsonNormalizeArr_ofList, JsArr.toList_ofList, decode_normalize_txs txs h]

theorem decode_normalize_blocks (chain : List Block)
    (h : ∀ b ∈ chain, ∀ t ∈ b.transactions, jsonSafe t.data = true) :
    ((chain.map encodeBlock).map jsonNormalize).map decodeBlock = chain := by
  induction chain with
  | nil => rfl
  | cons b rest ih =>
      show decodeBlock (jsonNormalize (encodeBlock b)) ::
        ((rest.map encodeBlock).map jsonNormalize).map decodeBlock = b :: rest
      rw [decodeBlock_roundtrip b (h b (by simp)), ih (fun x hx => h x (by simp [hx]))]

theorem decodeProduct_roundtrip (p : Product)
    (h1 : jsonSafe p.id = true) (h2 : jsonSafe p.name = true)
    (h3 : jsonSafe p.category = true) (h4 : jsonSafe p.unit = true)
    (h5 : jsonSafe p.quantity = true) (h6 : jsonSafe p.price = true)
    (h7 : ∀ x ∈ p.history, jsonSafe x = true) :
    decodeProduct (jsonNormalize (encodeProduct p)) = p := by
  obtain ⟨pid, pname, pcat, punit, pqty, pprice, phist⟩ := p
  have hobj : jsonNormalize (encodeProduct ⟨pid, pname, pcat, punit, pqty, pprice, phist⟩) =
      .vobj (.cons "id" pid (.cons "name" pname (.cons "category" pcat (.cons "unit" punit
        (.cons "quantity" pqty (.cons "price" pprice
          (.cons "history" (.varr (.ofList phist)) .nil))))))) := by
    show JsVal.vobj (jsonNormalizeObj (.cons "id" pid (.cons "name" pname
      (.cons "category" pcat (.cons "unit" punit (.cons "quantity" pqty
        (.cons "price" pprice (.cons "history" (.varr (.ofList phist)) .nil)))))))) = _
    rw [jsonNormalizeObj_cons_safe _ _ _ h1, jsonNormalizeObj_cons_safe _ _ _ h2,
        jsonNormalizeObj_cons_safe _ _ _ h3, jsonNormalizeObj_cons_safe _ _ _ h4,
        jsonNormalizeObj_cons_safe _ _ _ h5, jsonNormalizeObj_cons_safe _ _ _ h6,
        show jsonNormalizeObj (.cons "history" (.varr (.ofList phist)) .nil) =
          .cons "history" (.varr (jsonNormalizeArr (.ofList phist))) .nil from rfl,
        jsonNormalizeArr_ofList, map_normalize_of_safe phist h7]
  rw [hobj]
  show
    ({ id := pid
       name := pname
       category := pcat
       unit := punit
       quantity := pqty
       price := pprice
       history := (JsArr.ofList phist).toList } : Product) =
    ⟨pid, pname, pcat, punit, pqty, pprice, phist⟩
  rw [JsArr.toList_ofList]

theorem decode_normalize_pairs (ps : List (JsVal × Product))
    (h : ∀ e ∈ ps, jsonSafe e.1 = true ∧ jsonSafe e.2.id = true ∧
      jsonSafe e.2.name = true ∧ jsonSafe e.2.category = true ∧ jsonSafe e.2.unit = true ∧
      jsonSafe e.2.quantity = true ∧ jsonSafe e.2.price = true ∧
      ∀ x ∈ e.2.history, jsonSafe x = true) :
    ((ps.map (fun e => JsVal.varr (.ofList [e.1, encodeProduct e.2]))).map
      jsonNormalize).map decodePair = ps := by
  induction ps with
  | nil => rfl
  | cons e rest ih =>
      obtain ⟨hk, hp1, hp2, hp3, hp4, hp5, hp6, hp7⟩ := h e (by simp)
      show (jsonNormalize e.1, decodeProduct (jsonNormalize (encodeProduct e.2))) ::
        ((rest.map (fun e => JsVal.varr (.ofList [e.1, encodeProduct e.2]))).map
          jsonNormalize).map decodePair = e :: rest
      rw [jsonNormalize_of_safe e.1 hk,
        decodeProduct_roundtrip e.2 hp1 hp2 hp3 hp4 hp5 hp6 hp7,
        ih (fun x hx => h x (by simp [hx]))]

theorem mapSet_append (m : List (JsVal × Product)) (k : JsVal) (v : Product)
    (h : ∀ e ∈ m, sameValueZero e.1 k = false) : mapSet m k v = m ++ [(k, v)] := by
  induction m with
  | nil => rfl
  | cons e rest ih =>
      obtain ⟨k0, v0⟩ := e
      have he : sameValueZero k0 k = false := h (k0, v0) (by simp)
      show (if sameValueZero k0 k then (k0, v) :: rest else (k0, v0) :: mapSet rest k v) = _
      rw [if_neg (by simp [he]), ih (fun x hx => h x (by simp [hx]))]
      rfl

theorem foldl_mapSet_eq_append :
    ∀ (l acc : List (JsVal × Product)),
      l.Pairwise (fun a b => sameValueZero a.1 b.1 = false) →
      (∀ e ∈ acc, ∀ e2 ∈ l, sameValueZero e.1 e2.1 = false) →
      l.foldl (fun m kv => mapSet m kv.1 kv.2) acc = acc ++ l := by
  intro l
  induction l with
  | nil => intro acc _ _; simp
  | cons kv rest ih =>
      intro acc hpw hdis
      have hpw2 := List.pairwise_cons.mp hpw
      show rest.foldl (fun m kv => mapSet m kv.1 kv.2) (mapSet acc kv.1 kv.2) =
        acc ++ kv :: rest
      rw [mapSet_append acc kv.1 kv.2 (fun e he => hdis e he kv (by simp))]
      rw [ih (acc ++ [kv]) hpw2.2 ?_]
      · simp
      · intro e he e2 he2
        rcases List.mem_append.mp he with h | h
        · exact hdis e h e2 (by simp [he2])
        · have : e = kv := by simpa using h
          subst this
          exact hpw2.1 e2 he2

theorem mapFromPairs_eq_self (l : List (JsVal × Product))
    (hpw : l.Pairwise (fun a b => sameValueZero a.1 b.1 = false)) :
    mapFromPairs l = l := by
  unfold mapFromPairs
  rw [foldl_mapSet_eq_append l [] hpw (fun e he => absurd he (List.not_mem_nil e))]
  simp

theorem setAdd_append (s : List JsVal) (x : JsVal)
    (h : ∀ y ∈ s, sameValueZero y x = false) : setAdd s x = s ++ [x] := by
  unfold setAdd setHas
  rw [if_neg]
  intro hx
  obtain ⟨y, hy, hsv⟩ := List.any_eq_true.mp hx
  rw [h y hy] at hsv
  cases hsv

theorem foldl_setAdd_eq_append :
    ∀ (l acc : List JsVal),
      l.Pairwise (fun a b => sameValueZero a b = false) →
      (∀ y ∈ acc, ∀ x ∈ l, sameValueZero y x = false) →
      l.foldl setAdd acc = acc ++ l := by
  intro l
  induction l with
  | nil => intro acc _ _; simp
  | cons x rest ih =>
      intro acc hpw hdis
      have hpw2 := List.pairwise_cons.mp hpw
      show rest.foldl setAdd (setAdd acc x) = acc ++ x :: rest
      rw [setAdd_append acc x (fun y hy => hdis y hy x (by simp))]
      rw [ih (acc ++ [x]) hpw2.2 ?_]
      · simp
      · intro y hy x2 hx2
        rcases List.mem_append.mp hy with h | h
        · exact hdis y h x2 (by simp [hx2])
        · have : y = x := by simpa using h
          subst this
          exact hpw2.1 x2 hx2

theorem setFromList_eq_self (l : List JsVal)
    (hpw : l.Pairwise (fun a b => sameValueZero a b = false)) :
    setFromList l = l := by
  unfold setFromList
  rw [foldl_setAdd_eq_append l [] hpw (fun y hy => absurd hy (List.not_mem_nil y))]
  simp

/-- C7 amended: saving and loading a store whose values are all
JSON-representable (no `undefined`/`NaN` — the well-formed CLI flow produces
only such values) reproduces the chain, the products catalog and the category
set field for field, into any target store.  A `NaN` field value breaks the
unrestricted claim because `JSON.stringify` writes it as `null` (see the
counterexample). -/
theorem c7_save_load_roundtrip :
    ∀ (s0 s : ShopChain),
      s.jsonSafeStore →
      s.products.Pairwise (fun a b => sameValueZero a.1 b.1 = false) →
      s.productCategories.Pairwise (fun a b => sameValueZero a b = false) →
      (s0.loadFromFile (.fileData s.saveToFile)).1.chain = s.chain ∧
      (s0.loadFromFile (.fileData s.saveToFile)).1.products = s.products ∧
      (s0.loadFromFile (.fileData s.saveToFile)).1.productCategories =
        s.productCategories := by
  intro s0 s hsafe hkeys hcats
  obtain ⟨hchain_safe, hprod_safe, hcat_safe⟩ := hsafe
  refine ⟨?_, ?_, ?_⟩
  · show ((jsonNormalizeArr
      (.ofList (s.chain.map encodeBlock))).toList).map decodeBlock = s.chain
    rw [jsonNormalizeArr_ofList, JsArr.toList_ofList]
    exact decode_normalize_blocks s.chain hchain_safe
  · show mapFromPairs ((jsonNormalizeArr (.ofList (s.products.map (fun e =>
      JsVal.varr (.ofList [e.1, encodeProduct e.2]))))).toList.map decodePair) = s.products
    rw [jsonNormalizeArr_ofList, JsArr.toList_ofList,
      decode_normalize_pairs s.products hprod_safe]
    exact mapFromPairs_eq_self s.products hkeys
  · show setFromList ((jsonNormalizeArr
      (.ofList s.productCategories)).toList) = s.productCategories
    rw [jsonNormalizeArr_ofList, JsArr.toList_ofList, map_normalize_of_safe _ hcat_safe]
    exact setFromList_eq_self s.productCategories hcats

set_option maxRecDepth 1000000 in
set_option maxHeartbeats 8000000 in
/-- C7 counterexample: the claim quantifies over every store state, but a
store holding a product whose quantity is `NaN` (reachable through the CLI,
whose `parseInt` yields `NaN` on bad input) does not round-trip:
`JSON.stringify` writes `NaN` as `null`, so the loaded catalog differs field
for field from the pre-save one. -/
theorem c7_nan_quantity_breaks_roundtrip :
    ((ShopChain.construct 5).loadFromFile
      (.fileData scenarioStoreNaN.saveToFile)).1.products ≠ scenarioStoreNaN.products := by
  intro h
  have h1 : (mapGet ((ShopChain.construct 5).loadFromFile
      (.fileData scenarioStoreNaN.saveToFile)).1.products (.vstr "P1")).map
        Product.quantity = some .vnull := by rfl
  rw [h] at h1
  have h2 : (mapGet scenarioStoreNaN.products (.vstr "P1")).map Product.quantity =
      some .vnan := by rfl
  have h3 := h1.symm.trans h2
  injection h3 with h4
  cases h4

set_option maxRecDepth 1000000 in
set_option maxHeartbeats 16000000 in
/-- Witness for C7 (amended): the three-block CLI-shaped store (full,
JSON-representable payloads) round-trips into a fresh store created at a
different timestamp. -/
theorem c7_save_load_roundtrip_witness :
    ((ShopChain.construct 9).loadFromFile
        (.fileData scenarioStoreFull.saveToFile)).1.chain = scenarioStoreFull.chain ∧
    ((ShopChain.construct 9).loadFromFile
        (.fileData scenarioStoreFull.saveToFile)).1.products = scenarioStoreFull.products ∧
    ((ShopChain.construct 9).loadFromFile
        (.fileData scenarioStoreFull.saveToFile)).1.productCategories =
      scenarioStoreFull.productCategories :=
  c7_save_load_roundtrip (ShopChain.construct 9) scenarioStoreFull
    (by refine ⟨?_, ?_, ?_⟩ <;> decide)
    (by decide) (by decide)
